import Mathlib

/-!
Verification of the Bugwatch Python SDK core (event capture and
fingerprinting engine) against its natural-language specification.

The Python sources under `packages/sdk/python/bugwatch/` are shallowly
embedded below: pure functions become Lean functions, ambient interpreter
facts (clock, uuid, random draw, hostname, linecache, sys prefixes) become
explicit parameters, and fallible steps (the user-supplied before_send
hook, a pluggable transport) are modelled in an exception monad so that
propagation of Python exceptions is visible.  Machine integers are
modelled as `Nat` with explicit reductions modulo 2 ^ 32 where the SHA-256
computation overflows.  Character classes mirror the `re` module patterns
for ASCII text (the Python patterns additionally match non-ASCII word and
digit characters under `re.UNICODE`; every string the specification talks
about is ASCII).
-/

namespace Bugwatch

/-! ## SHA-256 (model of `hashlib.sha256`, byte lists as `List Nat`) -/

/-- Word size modulus for 32-bit arithmetic. -/
def M32 : Nat := 4294967296

/-- Addition modulo 2 ^ 32. -/
def add32 (a b : Nat) : Nat := (a + b) % M32

/-- Right rotation of a 32-bit word. -/
def rotr32 (n x : Nat) : Nat := ((x >>> n) ||| (x <<< (32 - n))) % M32

/-- SHA-256 Ch function. -/
def shaCh (x y z : Nat) : Nat := (x &&& y) ^^^ ((x ^^^ 4294967295) &&& z)

/-- SHA-256 Maj function. -/
def shaMaj (x y z : Nat) : Nat := (x &&& y) ^^^ (x &&& z) ^^^ (y &&& z)

/-- SHA-256 big sigma 0. -/
def bigS0 (x : Nat) : Nat := rotr32 2 x ^^^ rotr32 13 x ^^^ rotr32 22 x

/-- SHA-256 big sigma 1. -/
def bigS1 (x : Nat) : Nat := rotr32 6 x ^^^ rotr32 11 x ^^^ rotr32 25 x

/-- SHA-256 small sigma 0. -/
def smallS0 (x : Nat) : Nat := rotr32 7 x ^^^ rotr32 18 x ^^^ (x >>> 3)

/-- SHA-256 small sigma 1. -/
def smallS1 (x : Nat) : Nat := rotr32 17 x ^^^ rotr32 19 x ^^^ (x >>> 10)

/-- SHA-256 round constants (FIPS 180-4, written in decimal). -/
def shaK : List Nat :=
  [1116352408, 1899447441, 3049323471, 3921009573,
   961987163, 1508970993, 2453635748, 2870763221,
   3624381080, 310598401, 607225278, 1426881987,
   1925078388, 2162078206, 2614888103, 3248222580,
   3835390401, 4022224774, 264347078, 604807628,
   770255983, 1249150122, 1555081692, 1996064986,
   2554220882, 2821834349, 2952996808, 3210313671,
   3336571891, 3584528711, 113926993, 338241895,
   666307205, 773529912, 1294757372, 1396182291,
   1695183700, 1986661051, 2177026350, 2456956037,
   2730485921, 2820302411, 3259730800, 3345764771,
   3516065817, 3600352804, 4094571909, 275423344,
   430227734, 506948616, 659060556, 883997877,
   958139571, 1322822218, 1537002063, 1747873779,
   1955562222, 2024104815, 2227730452, 2361852424,
   2428436474, 2756734187, 3204031479, 3329325298]

/-- Running hash state: eight 32-bit words. -/
structure Sha8 where
  a : Nat
  b : Nat
  c : Nat
  d : Nat
  e : Nat
  f : Nat
  g : Nat
  h : Nat

/-- Initial SHA-256 hash state (FIPS 180-4, written in decimal). -/
def shaInit : Sha8 :=
  ⟨1779033703, 3144134277, 1013904242, 2773480762,
   1359893119, 2600822924, 528734635, 1541459225⟩

/-- Merkle-Damgard padding: append 0x80, zero bytes, then the 64-bit
big-endian bit length, reaching a multiple of 64 bytes. -/
def shaPad (msg : List Nat) : List Nat :=
  let len := msg.length
  let bitLen := 8 * len
  let zeros := (120 - (len + 1) % 64) % 64
  msg ++ [128] ++ List.replicate zeros 0 ++
    (List.range 8).map (fun i => (bitLen >>> (8 * (7 - i))) % 256)

/-- Parse a 64-byte chunk into sixteen big-endian 32-bit words. -/
def shaWords (c : List Nat) : List Nat :=
  (List.range 16).map (fun i =>
    c.getD (4 * i) 0 * 16777216 + c.getD (4 * i + 1) 0 * 65536 +
    c.getD (4 * i + 2) 0 * 256 + c.getD (4 * i + 3) 0)

/-- Extend sixteen schedule words to sixty-four. -/
def shaSchedule (ws : List Nat) : List Nat :=
  (List.range 48).foldl
    (fun acc i =>
      acc ++ [add32 (add32 (smallS1 (acc.getD (i + 14) 0)) (acc.getD (i + 9) 0))
                    (add32 (smallS0 (acc.getD (i + 1) 0)) (acc.getD i 0))])
    ws

/-- One compression round. -/
def shaRound (w : List Nat) (s : Sha8) (i : Nat) : Sha8 :=
  let t1 := add32 s.h (add32 (bigS1 s.e) (add32 (shaCh s.e s.f s.g)
              (add32 (shaK.getD i 0) (w.getD i 0))))
  let t2 := add32 (bigS0 s.a) (shaMaj s.a s.b s.c)
  ⟨add32 t1 t2, s.a, s.b, s.c, add32 s.d t1, s.e, s.f, s.g⟩

/-- Compress one 64-byte chunk into the running state. -/
def shaCompress (st : Sha8) (chunk : List Nat) : Sha8 :=
  let w := shaSchedule (shaWords chunk)
  let r := (List.range 64).foldl (shaRound w) st
  ⟨add32 st.a r.a, add32 st.b r.b, add32 st.c r.c, add32 st.d r.d,
   add32 st.e r.e, add32 st.f r.f, add32 st.g r.g, add32 st.h r.h⟩

/-- Big-endian bytes of a 32-bit word. -/
def word4 (x : Nat) : List Nat :=
  [(x >>> 24) % 256, (x >>> 16) % 256, (x >>> 8) % 256, x % 256]

/-- SHA-256 digest of a byte list (32 bytes). -/
def sha256Bytes (msg : List Nat) : List Nat :=
  let padded := shaPad msg
  let st := (List.range (padded.length / 64)).foldl
    (fun st i => shaCompress st ((padded.drop (64 * i)).take 64)) shaInit
  [st.a, st.b, st.c, st.d, st.e, st.f, st.g, st.h].flatMap word4

/-- Lower-case hex character of a nibble. -/
def hexChar (n : Nat) : Char := Char.ofNat (if n < 10 then 48 + n else 87 + n)

/-- Lower-case hex rendering of a byte list. -/
def bytesToHex (bs : List Nat) : List Char :=
  bs.flatMap (fun b => [hexChar (b / 16), hexChar (b % 16)])

/-- UTF-8 encoding of one character (model of Python str.encode). -/
def charUtf8 (c : Char) : List Nat :=
  let n := c.toNat
  if n < 128 then [n]
  else if n < 2048 then [192 + n / 64, 128 + n % 64]
  else if n < 65536 then [224 + n / 4096, 128 + (n / 64) % 64, 128 + n % 64]
  else [240 + n / 262144, 128 + (n / 4096) % 64, 128 + (n / 64) % 64, 128 + n % 64]

/-- UTF-8 bytes of a string. -/
def strToBytes (s : String) : List Nat := s.data.flatMap charUtf8

/-- Model of `hashlib.sha256(content.encode()).hexdigest()`. -/
def hashlib_sha256_hexdigest (s : String) : String :=
  String.mk (bytesToHex (sha256Bytes (strToBytes s)))

/-! ## Message normalization (model of `fingerprint._normalize_message`)

Each `re.sub(pattern, repl, s)` call is embedded as a left-to-right scan:
at each position the pattern is tried; on a (greedy, leftmost) match the
replacement text is emitted and scanning resumes after the matched span;
otherwise the character is copied.  All six patterns of the source admit
this form because each has a forced first character and a greedy tail. -/

/-- One scanning pass of `re.sub`.  `m l` returns the length of the (greedy)
match of the pattern at the head of `l`, or `none`.  The first argument is
fuel; it is always instantiated with the length of the scanned list, and
every matcher of this file matches at least one character, so the fuel
never runs out. -/
def scanGo (m : List Char → Option Nat) (repl : List Char) : Nat → List Char → List Char
  | _, [] => []
  | 0, l => l
  | fuel + 1, c :: rest =>
    match m (c :: rest) with
    | some n => repl ++ scanGo m repl fuel ((c :: rest).drop n)
    | none => c :: scanGo m repl fuel rest

/-- `re.sub` over a character list. -/
def reSub (m : List Char → Option Nat) (repl : String) (l : List Char) : List Char :=
  scanGo m repl.data l.length l

/-- ASCII hexadecimal digit (the class written 0-9a-fA-F in the source). -/
def isHexDigitChar (c : Char) : Bool :=
  c.isDigit || (97 ≤ c.toNat && c.toNat ≤ 102) || (65 ≤ c.toNat && c.toNat ≤ 70)

/-- ASCII word character, the class \w of the source patterns. -/
def isWordChar (c : Char) : Bool := c.isAlpha || c.isDigit || c == '_'

/-- Character class of the POSIX path pattern. -/
def isPosixPathChar (c : Char) : Bool := isWordChar c || c == '-' || c == '.' || c == '/'

/-- Character class of the Windows path pattern. -/
def isWinPathChar (c : Char) : Bool :=
  isWordChar c || c == '-' || c == '.' || c == '\\' || c == ' '

/-- The single-quote character. -/
def squote : Char := Char.ofNat 39

/-- Shape test of one position of the 8-4-4-4-12 UUID pattern. -/
def uuidSlotOk (i : Nat) (c : Char) : Bool :=
  if i == 8 || i == 13 || i == 18 || i == 23 then c == '-' else isHexDigitChar c

/-- Matcher of the UUID pattern (fixed width 36). -/
def uuidM (l : List Char) : Option Nat :=
  let w := l.take 36
  if w.length == 36 && w.enum.all (fun p => uuidSlotOk p.1 p.2) then some 36 else none

/-- Matcher of the pattern 0x followed by one or more hex digits (greedy). -/
def hexM : List Char → Option Nat
  | '0' :: 'x' :: rest =>
    let k := (rest.takeWhile isHexDigitChar).length
    if k == 0 then none else some (2 + k)
  | _ => none

/-- Matcher of the pattern at 0x followed by one or more hex digits. -/
def atM : List Char → Option Nat
  | 'a' :: 't' :: ' ' :: '0' :: 'x' :: rest =>
    let k := (rest.takeWhile isHexDigitChar).length
    if k == 0 then none else some (5 + k)
  | _ => none

/-- Matcher of the POSIX path pattern: a slash followed by one or more path
characters.  The source pattern is an iterated group whose class already
contains the slash, so its maximal match has exactly this form. -/
def posixPathM : List Char → Option Nat
  | '/' :: rest =>
    let k := (rest.takeWhile isPosixPathChar).length
    if k == 0 then none else some (1 + k)
  | _ => none

/-- Matcher of the Windows path pattern, as for `posixPathM`. -/
def winPathM : List Char → Option Nat
  | '\\' :: rest =>
    let k := (rest.takeWhile isWinPathChar).length
    if k == 0 then none else some (1 + k)
  | _ => none

/-- Matcher of a quoted literal: a quote, any characters other than the
quote, then the closing quote; no match when no closing quote exists. -/
def quoteM (q : Char) : List Char → Option Nat
  | c :: rest =>
    if c == q then
      let inside := rest.takeWhile (fun x => !(x == q))
      if inside.length == rest.length then none else some (inside.length + 2)
    else none
  | [] => none

/-- Matcher of a run of decimal digits (greedy). -/
def numM : List Char → Option Nat
  | c :: rest =>
    if c.isDigit then some (1 + (rest.takeWhile Char.isDigit).length) else none
  | [] => none

/-- Pass 1 of the source: UUID-shaped substrings. -/
def subUuid (l : List Char) : List Char := reSub uuidM "<uuid>" l

/-- Pass 2: 0x-prefixed hex runs. -/
def subHex (l : List Char) : List Char := reSub hexM "<hex>" l

/-- Pass 3: memory-address patterns. -/
def subAt (l : List Char) : List Char := reSub atM "at <address>" l

/-- Pass 4: POSIX path runs. -/
def subPathPosix (l : List Char) : List Char := reSub posixPathM "<path>" l

/-- Pass 5: Windows path runs. -/
def subPathWin (l : List Char) : List Char := reSub winPathM "<path>" l

/-- Pass 6: double-quoted literals. -/
def subQuoteD (l : List Char) : List Char := reSub (quoteM '"') "<string>" l

/-- Pass 7: single-quoted literals. -/
def subQuoteS (l : List Char) : List Char := reSub (quoteM squote) "<string>" l

/-- Pass 8: remaining digit runs. -/
def subNum (l : List Char) : List Char := reSub numM "<number>" l

/-- All passes before the final digit pass, in source order. -/
def preNumberPasses (l : List Char) : List Char :=
  subQuoteS (subQuoteD (subPathWin (subPathPosix (subAt (subHex (subUuid l))))))

/-- Model of `fingerprint._normalize_message`. -/
def _normalize_message (message : String) : String :=
  String.mk (subNum (preNumberPasses message.data))

/-! ## Fingerprints (model of `fingerprint.py`) -/

/-- Model of `fingerprint.generate_fingerprint`.  The Python guard
`if stacktrace:` is a truthiness test: it appends the digest only when the
argument is neither None nor the empty string. -/
def generate_fingerprint (error_type message : String) (stacktrace : Option String) : String :=
  let normalized := _normalize_message message
  let content := error_type ++ ":" ++ normalized
  let content2 :=
    match stacktrace with
    | some s => if s = "" then content else content ++ ":" ++ s
    | none => content
  String.mk ((hashlib_sha256_hexdigest content2).data.take 32)

/-- The content string exactly as the specification words it: the digest
suffix is appended whenever a digest is supplied. -/
def spec_fingerprint_content (error_type message : String) (stacktrace : Option String) : String :=
  let base := error_type ++ ":" ++ _normalize_message message
  match stacktrace with
  | some s => base ++ ":" ++ s
  | none => base

/-! ## Data model (model of `types.py`)

Dict values typed `Any` in the source are opaque payloads never examined
by the code under verification; they are modelled by their serialized
string form.  Timestamps are clock ticks (`Nat`) passed in explicitly. -/

/-- Severity level. -/
inductive Level
  | debug
  | info
  | warning
  | error
  | fatal
deriving DecidableEq, Repr

/-- A string-keyed map in insertion order (Python dict). -/
abbrev AnyMap := List (String × String)

/-- One frame of a stack trace. -/
structure StackFrame where
  filename : String
  function : String
  lineno : Nat
  colno : Option Nat
  context_line : Option String
  pre_context : Option (List String)
  post_context : Option (List String)
  in_app : Bool
  module : Option String
  vars : Option AnyMap
deriving DecidableEq, Repr

/-- Information about an exception. -/
structure ExceptionInfo where
  type : String
  value : String
  stacktrace : List StackFrame
  module : Option String
deriving DecidableEq, Repr

/-- A breadcrumb. -/
structure Breadcrumb where
  category : String
  message : String
  type : String
  level : Level
  timestamp : Nat
  data : Option AnyMap
deriving DecidableEq, Repr

/-- User context. -/
structure UserContext where
  id : Option String
  email : Option String
  username : Option String
  ip_address : Option String
  extra : Option AnyMap
deriving DecidableEq, Repr

/-- Request context. -/
structure RequestContext where
  url : Option String
  method : Option String
  headers : Option AnyMap
  query_string : Option String
  data : Option AnyMap
  cookies : Option AnyMap
  env : Option AnyMap
deriving DecidableEq, Repr

/-- Runtime identification. -/
structure RuntimeInfo where
  name : String
  version : String
deriving DecidableEq, Repr

/-- SDK identification. -/
structure SdkInfo where
  name : String
  version : String
deriving DecidableEq, Repr

/-- A complete error event. -/
structure ErrorEvent where
  event_id : String
  timestamp : Nat
  level : Level
  exception : Option ExceptionInfo
  message : Option String
  platform : String
  sdk : Option SdkInfo
  runtime : Option RuntimeInfo
  request : Option RequestContext
  user : Option UserContext
  tags : AnyMap
  extra : AnyMap
  breadcrumbs : List Breadcrumb
  fingerprint : Option String
  environment : Option String
  release : Option String
  server_name : Option String
deriving DecidableEq, Repr

/-- A Python exception value propagating out of user-supplied code. -/
abbrev PyErr := String

/-- Client configuration options.  The sample rate is an exact rational
standing for the Python float (no claim under verification exercises
floating-point rounding).  The before_send hook is arbitrary user code and
may raise, return None (drop) or return a replacement event. -/
structure BugwatchOptions where
  api_key : String
  endpoint : String
  environment : Option String
  release : Option String
  server_name : Option String
  debug : Bool
  max_breadcrumbs : Nat
  sample_rate : Rat
  attach_stacktrace : Bool
  send_default_pii : Bool
  before_send : Option (ErrorEvent → Except PyErr (Option ErrorEvent))
  capture_locals : Bool
  max_value_length : Nat

/-- Client state: options, a pluggable transport (arbitrary code, so it may
raise), and the mutable context owned by the client. -/
structure BugwatchClient where
  options : BugwatchOptions
  transport_send : ErrorEvent → Except PyErr Bool
  breadcrumbs : List Breadcrumb
  user : Option UserContext
  request : Option RequestContext
  tags : AnyMap
  extra : AnyMap

/-- One traceback entry of a raised Python exception, as the interpreter
hands it to the client (`tb_frame` data already resolved; local bindings
appear in their serialized form). -/
structure PyTracebackFrame where
  filename : String
  function : String
  lineno : Nat
  module : Option String
  locals : Option AnyMap
deriving DecidableEq, Repr

/-- A raised Python exception object: its class name, str() rendering,
defining module and traceback chain. -/
structure PyExceptionObj where
  type : String
  value : String
  module : Option String
  traceback : List PyTracebackFrame
deriving DecidableEq, Repr

/-- Ambient interpreter facts used by the client: sys prefixes, the
linecache reader (returns the empty string for unreadable lines), the
Python version and the local host name. -/
structure PyEnv where
  sys_prefix : String
  sys_base_prefix : String
  getline : String → Nat → String
  python_version : String
  hostname : String

/-! ## Client operations (model of `client.py`) -/

/-- Substring containment test (Python `in` on str). -/
def containsSubstr (hay needle : String) : Bool :=
  (List.range (hay.data.length + 1)).any (fun i => needle.data.isPrefixOf (hay.data.drop i))

/-- Python str.rstrip(): drop trailing whitespace. -/
def rstripStr (s : String) : String :=
  String.mk ((s.data.reverse.dropWhile Char.isWhitespace).reverse)

/-- Model of `BugwatchClient._is_in_app`. -/
def _is_in_app (env : PyEnv) (filename : String) : Bool :=
  if containsSubstr filename "site-packages" then false
  else if filename.startsWith "<" then false
  else if [env.sys_prefix, env.sys_base_prefix].any
      (fun p => filename.startsWith p && !containsSubstr filename "site-packages") then false
  else true

/-- Insert or overwrite one key of a dict, keeping insertion order. -/
def dictUpsert (m : AnyMap) (k v : String) : AnyMap :=
  if m.any (fun p => p.1 == k) then m.map (fun p => if p.1 == k then (k, v) else p)
  else m ++ [(k, v)]

/-- Python dict.update: upsert every pair of the second map into the first. -/
def dictMerge (base upd : AnyMap) : AnyMap :=
  upd.foldl (fun acc p => dictUpsert acc p.1 p.2) base

/-- Model of `BugwatchClient._extract_exception`: walk the traceback,
classify frames, fetch source context, optionally keep serialized locals
of in-app frames. -/
def _extract_exception (c : BugwatchClient) (env : PyEnv) (error : PyExceptionObj) :
    ExceptionInfo :=
  let frames := error.traceback.map (fun (tf : PyTracebackFrame) =>
    let in_app := _is_in_app env tf.filename
    let ctx := rstripStr (env.getline tf.filename tf.lineno)
    let lo := max 1 (tf.lineno - 3)
    let pre := (List.range' lo (tf.lineno - lo)).filterMap (fun i =>
      let line := env.getline tf.filename i
      if line = "" then none else some (rstripStr line))
    let post := (List.range' (tf.lineno + 1) 3).filterMap (fun i =>
      let line := env.getline tf.filename i
      if line = "" then none else some (rstripStr line))
    { filename := tf.filename
      function := tf.function
      lineno := tf.lineno
      colno := some 0
      context_line := if ctx = "" then none else some ctx
      pre_context := if pre = [] then none else some pre
      post_context := if post = [] then none else some post
      in_app := in_app
      module := tf.module
      vars := if c.options.capture_locals && in_app then tf.locals else none })
  { type := error.type, value := error.value, stacktrace := frames, module := error.module }

/-- Model of `BugwatchClient._create_event`.  The Python guard
`self.options.server_name or socket.gethostname()` is a truthiness test,
so an empty configured server name also falls back to the host name. -/
def _create_event (c : BugwatchClient) (env : PyEnv) (event_id : String) (now : Nat)
    (level : Level) (exception : Option ExceptionInfo) (message : Option String)
    (tags : Option AnyMap) (extra : Option AnyMap) : ErrorEvent :=
  let merged_tags := match tags with | some t => dictMerge c.tags t | none => c.tags
  let merged_extra := match extra with | some x => dictMerge c.extra x | none => c.extra
  let final_message : String :=
    match message with
    | some m => m
    | none =>
      match exception with
      | some e => e.type ++ ": " ++ e.value
      | none => ""
  { event_id := event_id
    timestamp := now
    level := level
    exception := exception
    message := some final_message
    platform := "python"
    sdk := some ⟨"bugwatch-python", "0.1.0"⟩
    runtime := some ⟨"python", env.python_version⟩
    request := c.request
    user := c.user
    tags := merged_tags
    extra := merged_extra
    breadcrumbs := c.breadcrumbs
    fingerprint := none
    environment := c.options.environment
    release := c.options.release
    server_name := some (match c.options.server_name with
      | some s => if s = "" then env.hostname else s
      | none => env.hostname) }

/-- The sampling gate: a rate below 1.0 drops the call when the uniform
draw exceeds the rate. -/
def sampledOut (c : BugwatchClient) (rand : Rat) : Bool :=
  decide (c.options.sample_rate < 1 ∧ c.options.sample_rate < rand)

/-- Model of the stack digest computed inside
`fingerprint.fingerprint_from_exception`: the source walks
`exception.stacktrace[:5]` and keeps the in-app frames of that prefix. -/
def frameFmt (f : StackFrame) : String :=
  f.filename ++ ":" ++ f.function ++ ":" ++ toString f.lineno

/-- The digest string the source builds (or None when no part qualifies). -/
def fingerprintStacktrace (e : ExceptionInfo) : Option String :=
  let parts := ((e.stacktrace.take 5).filter (fun f => f.in_app)).map frameFmt
  if parts.isEmpty then none else some (String.intercalate "|" parts)

/-- Model of `fingerprint.fingerprint_from_exception`. -/
def fingerprint_from_exception (e : ExceptionInfo) : String :=
  generate_fingerprint e.type e.value (fingerprintStacktrace e)

/-- The digest as the specification words it: up to the first five in-app
frames of the whole stack qualify. -/
def specStackDigest (e : ExceptionInfo) : Option String :=
  let parts := ((e.stacktrace.filter (fun f => f.in_app)).take 5).map frameFmt
  if parts.isEmpty then none else some (String.intercalate "|" parts)

/-- Model of `BugwatchClient.capture_message`.  Returns the Python result
(the event id, or a propagating exception) together with the list of
events handed to the transport during the call. -/
def capture_message (c : BugwatchClient) (env : PyEnv) (rand : Rat) (event_id : String)
    (now : Nat) (message : String) (level : Level) (tags : Option AnyMap)
    (extra : Option AnyMap) : Except PyErr String × List ErrorEvent :=
  if sampledOut c rand then (Except.ok "", [])
  else
    let event := _create_event c env event_id now level none (some message) tags extra
    match c.options.before_send with
    | some hook =>
      match hook event with
      | Except.error e => (Except.error e, [])
      | Except.ok none => (Except.ok "", [])
      | Except.ok (some ev) =>
        match c.transport_send ev with
        | Except.error e => (Except.error e, [ev])
        | Except.ok _ => (Except.ok ev.event_id, [ev])
    | none =>
      match c.transport_send event with
      | Except.error e => (Except.error e, [event])
      | Except.ok _ => (Except.ok event.event_id, [event])

/-- Model of `BugwatchClient.capture_exception`.  The explicit argument
takes precedence; otherwise the exception currently being handled
(`sys.exc_info`) is used; with neither, the call is a no-op returning the
empty string. -/
def capture_exception (c : BugwatchClient) (env : PyEnv) (rand : Rat) (event_id : String)
    (now : Nat) (error : Option PyExceptionObj) (current_exc : Option PyExceptionObj)
    (level : Level) (tags : Option AnyMap) (extra : Option AnyMap) :
    Except PyErr String × List ErrorEvent :=
  let resolved := match error with
    | some e => some e
    | none => current_exc
  match resolved with
  | none => (Except.ok "", [])
  | some err =>
    if sampledOut c rand then (Except.ok "", [])
    else
      let xi := _extract_exception c env err
      let event0 := _create_event c env event_id now level (some xi) none tags extra
      let event := { event0 with fingerprint := some (fingerprint_from_exception xi) }
      match c.options.before_send with
      | some hook =>
        match hook event with
        | Except.error e => (Except.error e, [])
        | Except.ok none => (Except.ok "", [])
        | Except.ok (some ev) =>
          match c.transport_send ev with
          | Except.error e => (Except.error e, [ev])
          | Except.ok _ => (Except.ok ev.event_id, [ev])
      | none =>
        match c.transport_send event with
        | Except.error e => (Except.error e, [event])
        | Except.ok _ => (Except.ok event.event_id, [event])

/-- Python list slicing `l[-n:]` for a non-negative count: the last n
elements, except that a count of zero yields the whole list. -/
def pySliceLast (l : List α) (n : Nat) : List α :=
  if n = 0 then l else l.drop (l.length - n)

/-- The breadcrumb-trail step of `BugwatchClient.add_breadcrumb`: append,
then slice to the last max_breadcrumbs entries when over the limit. -/
def trailStep (cap : Nat) (bs : List Breadcrumb) (b : Breadcrumb) : List Breadcrumb :=
  let l := bs ++ [b]
  if cap < l.length then pySliceLast l cap else l

/-- Model of `BugwatchClient.add_breadcrumb`. -/
def add_breadcrumb (c : BugwatchClient) (now : Nat) (category message : String)
    (level : Level) (data : Option AnyMap) (breadcrumb_type : String) : BugwatchClient :=
  { c with breadcrumbs :=
      (trailStep c.options.max_breadcrumbs c.breadcrumbs
        ⟨category, message, breadcrumb_type, level, now, data⟩) }

/-- The trail left by a sequence of appends starting from an empty trail. -/
def trailAfter (cap : Nat) (input : List Breadcrumb) : List Breadcrumb :=
  input.foldl (trailStep cap) []

/-- Model of `BugwatchClient.set_user`. -/
def set_user (c : BugwatchClient) (u : Option UserContext) : BugwatchClient :=
  { c with user := u }

/-- Model of `BugwatchClient.set_request`. -/
def set_request (c : BugwatchClient) (r : Option RequestContext) : BugwatchClient :=
  { c with request := r }

/-- Model of `BugwatchClient.set_tag`. -/
def set_tag (c : BugwatchClient) (k v : String) : BugwatchClient :=
  { c with tags := dictUpsert c.tags k v }

/-- Model of `BugwatchClient.set_extra`. -/
def set_extra (c : BugwatchClient) (k v : String) : BugwatchClient :=
  { c with extra := dictUpsert c.extra k v }

/-- Model of `BugwatchClient.clear_breadcrumbs`. -/
def clear_breadcrumbs (c : BugwatchClient) : BugwatchClient :=
  { c with breadcrumbs := [] }

/-! ## Module-level API (model of `bugwatch/__init__.py`)

The global client is `Option BugwatchClient`; `init` stores a client and
`close` clears it.  Every module-level function first tests the global for
None. -/

/-- Model of module-level `capture_exception`. -/
def module_capture_exception (g : Option BugwatchClient) (env : PyEnv) (rand : Rat)
    (event_id : String) (now : Nat) (error : Option PyExceptionObj)
    (current_exc : Option PyExceptionObj) (level : Level) (tags : Option AnyMap)
    (extra : Option AnyMap) : Except PyErr String × List ErrorEvent :=
  match g with
  | none => (Except.ok "", [])
  | some c => capture_exception c env rand event_id now error current_exc level tags extra

/-- Model of module-level `capture_message`. -/
def module_capture_message (g : Option BugwatchClient) (env : PyEnv) (rand : Rat)
    (event_id : String) (now : Nat) (message : String) (level : Level)
    (tags : Option AnyMap) (extra : Option AnyMap) : Except PyErr String × List ErrorEvent :=
  match g with
  | none => (Except.ok "", [])
  | some c => capture_message c env rand event_id now message level tags extra

/-- Model of module-level `add_breadcrumb`. -/
def module_add_breadcrumb (g : Option BugwatchClient) (now : Nat) (category message : String)
    (level : Level) (data : Option AnyMap) : Option BugwatchClient :=
  match g with
  | none => none
  | some c => some (add_breadcrumb c now category message level data "default")

/-- Model of module-level `set_user`. -/
def module_set_user (g : Option BugwatchClient) (u : Option UserContext) :
    Option BugwatchClient :=
  match g with
  | none => none
  | some c => some (set_user c u)

/-- Model of module-level `set_request`. -/
def module_set_request (g : Option BugwatchClient) (r : Option RequestContext) :
    Option BugwatchClient :=
  match g with
  | none => none
  | some c => some (set_request c r)

/-- Model of module-level `set_tag`. -/
def module_set_tag (g : Option BugwatchClient) (k v : String) : Option BugwatchClient :=
  match g with
  | none => none
  | some c => some (set_tag c k v)

/-- Model of module-level `set_extra`. -/
def module_set_extra (g : Option BugwatchClient) (k v : String) : Option BugwatchClient :=
  match g with
  | none => none
  | some c => some (set_extra c k v)

/-- Model of module-level `close`: the global client is discarded. -/
def module_close (g : Option BugwatchClient) : Option BugwatchClient :=
  match g with
  | none => none
  | some _ => none

/-! ## Transport (model of `transport.py`)

The network is ambient: a send observes one of the outcomes below.  The
source wraps the whole send body in catch-all handlers, so a send is a
total function of the outcome; it returns the delivered flag together with
the log lines it emits. -/

/-- Outcome of the single network call of a send. -/
inductive NetOutcome
  | response (status : Nat)
  | httpError (code : Nat) (reason : String)
  | urlError (reason : String)
  | exceptionRaised (message : String)
deriving DecidableEq, Repr

/-- Model of `HttpTransport.send` (the synchronous urllib variant). -/
def HttpTransport_send (event : ErrorEvent) (debug : Bool) (net : NetOutcome) :
    Bool × List String :=
  match net with
  | NetOutcome.response s =>
    if s = 200 ∨ s = 201 ∨ s = 202 then
      (true, if debug then ["Event sent successfully: " ++ event.event_id] else [])
    else (false, ["Failed to send event: HTTP " ++ toString s])
  | NetOutcome.httpError code reason =>
    (false, ["HTTP error sending event: " ++ toString code ++ " " ++ reason])
  | NetOutcome.urlError reason => (false, ["URL error sending event: " ++ reason])
  | NetOutcome.exceptionRaised msg => (false, ["Error sending event: " ++ msg])

/-- Model of `AsyncHttpTransport.send_async` (the httpx variant); every
failure is caught by one catch-all handler. -/
def AsyncHttpTransport_send_async (event : ErrorEvent) (debug : Bool) (net : NetOutcome) :
    Bool × List String :=
  match net with
  | NetOutcome.response s =>
    if s = 200 ∨ s = 201 then
      (true, if debug then ["Event sent successfully: " ++ event.event_id] else [])
    else (false, ["Failed to send event: HTTP " ++ toString s])
  | NetOutcome.httpError code reason =>
    (false, ["Error sending event: " ++ toString code ++ " " ++ reason])
  | NetOutcome.urlError reason => (false, ["Error sending event: " ++ reason])
  | NetOutcome.exceptionRaised msg => (false, ["Error sending event: " ++ msg])

/-! ## Concrete fixtures used by witnesses and counterexamples -/

/-- The disjunction the specification asserts of every event: a non-empty
message or a non-null exception. -/
def eventHasContent (e : ErrorEvent) : Bool :=
  (match e.message with
   | some s => decide (s ≠ "")
   | none => false) || decide (e.exception ≠ none)

/-- No digit at the tail of a context (true for the empty context). -/
def noDigitLast (A : List Char) : Bool :=
  match A.getLast? with
  | some a => !a.isDigit
  | none => true

/-- No digit at the head of a context (true for the empty context). -/
def noDigitHead (B : List Char) : Bool :=
  match B.head? with
  | some b => !b.isDigit
  | none => true

/-- A concrete interpreter environment. -/
def exEnv : PyEnv := ⟨"/usr", "/usr", fun _ _ => "", "3.11.0", "testhost"⟩

/-- Concrete options around a given before_send hook. -/
def exOptions (hook : Option (ErrorEvent → Except PyErr (Option ErrorEvent))) :
    BugwatchOptions :=
  ⟨"test-api-key", "https://api.bugwatch.dev", none, none, none, false, 100, 1, true, false,
   hook, false, 1024⟩

/-- A concrete client with a recording transport that always succeeds. -/
def exClient (hook : Option (ErrorEvent → Except PyErr (Option ErrorEvent))) :
    BugwatchClient :=
  ⟨exOptions hook, fun _ => Except.ok true, [], none, none, [], []⟩

/-- A before_send hook that raises. -/
def boomHook : ErrorEvent → Except PyErr (Option ErrorEvent) := fun _ => Except.error "boom"

/-- A before_send hook that returns the drop signal. -/
def dropHook : ErrorEvent → Except PyErr (Option ErrorEvent) := fun _ => Except.ok none

/-- A before_send hook that sets one tag on the event, as in the repository
test suite. -/
def modHook : ErrorEvent → Except PyErr (Option ErrorEvent) :=
  fun e => Except.ok (some { e with tags := dictUpsert e.tags "modified" "true" })

/-- A concrete raised exception without a traceback. -/
def exErr : PyExceptionObj := ⟨"ValueError", "test error", none, []⟩

/-- A client configured with breadcrumb capacity zero. -/
def exClientCap0 : BugwatchClient :=
  { exClient none with options := { exOptions none with max_breadcrumbs := 0 } }

/-- A stack frame fixture. -/
def exFrame (name : String) (app : Bool) : StackFrame :=
  ⟨name, "fn", 1, some 0, none, none, none, app, none, none⟩

/-- An exception whose only in-app frame sits at stack position six. -/
def exDeepException : ExceptionInfo :=
  ⟨"ValueError", "boom",
   [exFrame "lib1.py" false, exFrame "lib2.py" false, exFrame "lib3.py" false,
    exFrame "lib4.py" false, exFrame "lib5.py" false, exFrame "app.py" true], none⟩

/-- A breadcrumb fixture. -/
def exCrumb (i : Nat) : Breadcrumb := ⟨"cat", toString i, "default", Level.info, i, none⟩

/-- The event `capture_exception` shows to the before_send hook: the built
event with the fingerprint of the extracted exception attached. -/
def hookedExceptionEvent (c : BugwatchClient) (env : PyEnv) (eid : String) (now : Nat)
    (err : PyExceptionObj) (lvl : Level) (tags : Option AnyMap) (extra : Option AnyMap) :
    ErrorEvent :=
  let xi := _extract_exception c env err
  { _create_event c env eid now lvl (some xi) none tags extra with
      fingerprint := some (fingerprint_from_exception xi) }

/-! ## Theorems -/

/-- Claim C1 (code_bug evidence): the public submission operations do not
catch internal exceptions.  With a before_send hook that raises, both
`capture_message` and `capture_exception` let the exception propagate to
the caller instead of returning the empty string, contradicting the
specification requirement that submission fail silently. -/
theorem capture_hook_exception_propagates :
    capture_message (exClient (some boomHook)) exEnv 1 "id1" 0 "hello" Level.info none none
      = (Except.error "boom", [])
    ∧ capture_exception (exClient (some boomHook)) exEnv 1 "id2" 0 (some exErr) none
        Level.error none none
      = (Except.error "boom", []) := by
  constructor <;> rfl

/-- Claim C6 (code_bug evidence): pass 3 of `_normalize_message` rewrites
memory addresses to at-address markers, but pass 2 has already rewritten
every 0x-prefixed hex run, so pass 3 can never match and the normalized
message keeps the at-hex form.  Applied alone to the raw message, the
pass 3 pattern does match; applied to the output of pass 2, it does not. -/
theorem memory_address_rule_dead :
    _normalize_message "object at 0x7f3a" = "object at <hex>"
    ∧ String.mk (subAt (String.data "at 0x7f3a")) = "at <address>"
    ∧ String.mk (subHex (String.data "at 0x7f3a")) = "at <hex>"
    ∧ String.mk (subAt (String.data "at <hex>")) = "at <hex>" := by
  refine ⟨by decide, by decide, by decide, by decide⟩

/-- Claim C9 (code_bug evidence): the synchronous transport reports
delivery exactly for statuses 200, 201 and 202 and reports failure, after
logging, for every other status and every network-level error; but the
asynchronous variant rejects status 202, diverging from the specification
and from its synchronous sibling. -/
theorem transport_status_handling :
    ∀ (ev : ErrorEvent) (dbg : Bool),
      (∀ s : Nat, (HttpTransport_send ev dbg (NetOutcome.response s)).1
        = (s == 200 || s == 201 || s == 202))
      ∧ (∀ code reason, (HttpTransport_send ev dbg (NetOutcome.httpError code reason)).1 = false
          ∧ (HttpTransport_send ev dbg (NetOutcome.httpError code reason)).2 ≠ [])
      ∧ (∀ reason, (HttpTransport_send ev dbg (NetOutcome.urlError reason)).1 = false
          ∧ (HttpTransport_send ev dbg (NetOutcome.urlError reason)).2 ≠ [])
      ∧ (∀ msg, (HttpTransport_send ev dbg (NetOutcome.exceptionRaised msg)).1 = false
          ∧ (HttpTransport_send ev dbg (NetOutcome.exceptionRaised msg)).2 ≠ [])
      ∧ (∀ s : Nat, (AsyncHttpTransport_send_async ev dbg (NetOutcome.response s)).1
          = (s == 200 || s == 201))
      ∧ (AsyncHttpTransport_send_async ev dbg (NetOutcome.response 202)).1 = false
      ∧ (HttpTransport_send ev dbg (NetOutcome.response 202)).1 = true := by
  intro ev dbg
  refine ⟨?_, ?_, ?_, ?_, ?_, ?_, ?_⟩
  · intro s
    by_cases h200 : s = 200 <;> by_cases h201 : s = 201 <;> by_cases h202 : s = 202 <;>
      simp [HttpTransport_send, h200, h201, h202]
  · intro code reason; exact ⟨rfl, by simp [HttpTransport_send]⟩
  · intro reason; exact ⟨rfl, by simp [HttpTransport_send]⟩
  · intro msg; exact ⟨rfl, by simp [HttpTransport_send]⟩
  · intro s
    by_cases h200 : s = 200 <;> by_cases h201 : s = 201 <;>
      simp [AsyncHttpTransport_send_async, h200, h201]
  · rfl
  · rfl

/-- Claim C10: with an uninitialized global client (never initialized, or
discarded by close), every module-level call is a safe no-op: the capture
operations return the empty string and send nothing, and the breadcrumb
and context setters leave the global state unchanged; none of them can
raise (each is a total function of its inputs here). -/
theorem uninitialized_module_api_noop :
    ∀ (env : PyEnv) (rand : Rat) (eid : String) (now : Nat)
      (error : Option PyExceptionObj) (cur : Option PyExceptionObj) (lvl : Level)
      (tags : Option AnyMap) (extra : Option AnyMap) (msg cat m : String)
      (data : Option AnyMap) (u : Option UserContext) (r : Option RequestContext)
      (k v : String) (g : Option BugwatchClient),
      module_capture_exception none env rand eid now error cur lvl tags extra
        = (Except.ok "", [])
      ∧ module_capture_message none env rand eid now msg lvl tags extra = (Except.ok "", [])
      ∧ module_add_breadcrumb none now cat m lvl data = none
      ∧ module_set_user none u = none
      ∧ module_set_request none r = none
      ∧ module_set_tag none k v = none
      ∧ module_set_extra none k v = none
      ∧ module_close g = none
      ∧ module_capture_message (module_close g) env rand eid now msg lvl tags extra
        = (Except.ok "", []) := by
  intro env rand eid now error cur lvl tags extra msg cat m data u r k v g
  refine ⟨rfl, rfl, rfl, rfl, rfl, rfl, rfl, ?_, ?_⟩
  · cases g <;> rfl
  · cases g <;> rfl

/-- Claim C3 counterexample: with a configured capacity of zero the slice
written `breadcrumbs[-max:]` keeps the whole list, so the trail grows past
its capacity: one append leaves one entry, a second append leaves two. -/
theorem zero_capacity_trail_overflows :
    exClientCap0.options.max_breadcrumbs = 0
    ∧ (add_breadcrumb exClientCap0 0 "cat" "m1" Level.info none "default").breadcrumbs.length
        = 1
    ∧ (add_breadcrumb (add_breadcrumb exClientCap0 0 "cat" "m1" Level.info none "default")
        1 "cat" "m2" Level.info none "default").breadcrumbs.length = 2 := by
  refine ⟨rfl, rfl, rfl⟩

/-- Claim C7 counterexample: `capture_message` with the empty string as
text produces and sends an event whose message is the empty string and
whose exception is null, so the event has neither a non-empty message nor
a non-null exception. -/
theorem empty_message_event_lacks_content :
    (capture_message (exClient none) exEnv 1 "id7" 0 "" Level.info none none).2.map
        ErrorEvent.message = [some ""]
    ∧ (capture_message (exClient none) exEnv 1 "id7" 0 "" Level.info none none).2.map
        ErrorEvent.exception = [none]
    ∧ (capture_message (exClient none) exEnv 1 "id7" 0 "" Level.info none none).2.map
        eventHasContent = [false] := by
  refine ⟨rfl, rfl, rfl⟩

/-- Claim C4 counterexample: the source restricts the digest to the first
five stack frames before filtering for in-app frames, so an in-app frame
at stack position six is ignored even though no earlier in-app frame was
taken; the digest the claim describes (first five in-app frames of the
whole stack) disagrees with the digest the code uses. -/
theorem digest_ignores_late_in_app_frame :
    fingerprintStacktrace exDeepException = none
    ∧ specStackDigest exDeepException = some "app.py:fn:1"
    ∧ fingerprintStacktrace exDeepException ≠ specStackDigest exDeepException := by
  refine ⟨rfl, by decide, by decide⟩

/-- Claim C4 amended: the digest is built from the in-app frames among the
first five stack frames (an in-app frame after stack position five never
qualifies), each formatted file:function:line and joined with a bar; the
digest is absent exactly when none of the first five frames is in-app, and
then the fingerprint is the digest-free fingerprint of type and message. -/
theorem digest_from_first_five_frames :
    ∀ e : ExceptionInfo,
      fingerprint_from_exception e
        = generate_fingerprint e.type e.value (fingerprintStacktrace e)
      ∧ (fingerprintStacktrace e).isNone
          = ((e.stacktrace.take 5).filter (fun f => f.in_app)).isEmpty
      ∧ (((e.stacktrace.take 5).filter (fun f => f.in_app)) ≠ [] →
          fingerprintStacktrace e
            = some (String.intercalate "|"
                (((e.stacktrace.take 5).filter (fun f => f.in_app)).map frameFmt)))
      ∧ (((e.stacktrace.take 5).filter (fun f => f.in_app)) = [] →
          fingerprint_from_exception e = generate_fingerprint e.type e.value none) := by
  intro e
  refine ⟨rfl, ?_, ?_, ?_⟩
  · cases hL : (e.stacktrace.take 5).filter (fun f => f.in_app) <;>
      simp [fingerprintStacktrace, hL]
  · intro h
    cases hL : (e.stacktrace.take 5).filter (fun f => f.in_app) with
    | nil => exact absurd hL h
    | cons x xs => simp [fingerprintStacktrace, hL]
  · intro h
    have hfs : fingerprintStacktrace e = none := by simp [fingerprintStacktrace, h]
    show generate_fingerprint e.type e.value (fingerprintStacktrace e)
      = generate_fingerprint e.type e.value none
    rw [hfs]

/-- Witness for the amended claim C4 at a concrete exception with no
in-app frame among the first five. -/
theorem digest_from_first_five_frames_witness :
    fingerprint_from_exception exDeepException
      = generate_fingerprint "ValueError" "boom" none :=
  (digest_from_first_five_frames exDeepException).2.2.2 (by decide)

/-- Auxiliary: a hex rendering has two characters per byte. -/
theorem length_bytesToHex (bs : List Nat) : (bytesToHex bs).length = 2 * bs.length := by
  induction bs with
  | nil => rfl
  | cons b t ih => simp [bytesToHex, List.flatMap_cons] at ih ⊢; omega

/-- Auxiliary: a SHA-256 digest has thirty-two bytes. -/
theorem length_sha256Bytes (m : List Nat) : (sha256Bytes m).length = 32 := by
  simp [sha256Bytes, word4]

/-- Auxiliary: a SHA-256 hexdigest has sixty-four characters. -/
theorem length_hexdigest (s : String) : (hashlib_sha256_hexdigest s).data.length = 64 := by
  show (bytesToHex (sha256Bytes (strToBytes s))).length = 64
  rw [length_bytesToHex, length_sha256Bytes]

/-- Claim C2: for every type, message and optional digest (a digest, per
the specification, is never the empty string: an absent digest is None),
`generate_fingerprint` returns exactly the first thirty-two hexadecimal
characters of the SHA-256 hexdigest of type, colon, normalized message,
with colon and digest appended when a digest is supplied; being a pure
function of these three arguments, it is deterministic and independent of
timestamps, ids and memory addresses. -/
theorem generate_fingerprint_matches_spec :
    ∀ (t m : String) (d : Option String), (∀ s, d = some s → s ≠ "") →
      generate_fingerprint t m d
        = String.mk ((hashlib_sha256_hexdigest (spec_fingerprint_content t m d)).data.take 32)
      ∧ (generate_fingerprint t m d).length = 32 := by
  intro t m d hd
  have hlen : ∀ u : String,
      (String.mk ((hashlib_sha256_hexdigest u).data.take 32)).length = 32 := by
    intro u
    show ((hashlib_sha256_hexdigest u).data.take 32).length = 32
    rw [List.length_take, length_hexdigest]
    omega
  cases d with
  | none => exact ⟨rfl, hlen _⟩
  | some s =>
    have hs : s ≠ "" := hd s rfl
    have heq : generate_fingerprint t m (some s)
        = String.mk ((hashlib_sha256_hexdigest
            (spec_fingerprint_content t m (some s))).data.take 32) := by
      simp [generate_fingerprint, spec_fingerprint_content, hs]
    exact ⟨heq, heq ▸ hlen _⟩

/-- Witness for claim C2 at a concrete type and message without digest. -/
theorem generate_fingerprint_matches_spec_witness :
    generate_fingerprint "TypeError" "boom" none
      = String.mk ((hashlib_sha256_hexdigest
          (spec_fingerprint_content "TypeError" "boom" none)).data.take 32)
    ∧ (generate_fingerprint "TypeError" "boom" none).length = 32 :=
  generate_fingerprint_matches_spec "TypeError" "boom" none (fun _ h => nomatch h)

/-- Claim C7 amended: every built event carries a non-None message; with an
exception and no explicit message the message is synthesized as type,
colon-space, value (and the event then has content through its non-null
exception); an explicit message is kept verbatim, so the event has a
non-empty message whenever the supplied text is non-empty — the sole
violation of the original non-empty-message-or-exception disjunction is a
capture_message call with empty text. -/
theorem create_event_message_policy :
    ∀ (c : BugwatchClient) (env : PyEnv) (eid : String) (now : Nat) (lvl : Level)
      (e : ExceptionInfo) (exc : Option ExceptionInfo) (m : String)
      (tags : Option AnyMap) (extra : Option AnyMap),
      (_create_event c env eid now lvl (some e) none tags extra).message
        = some (e.type ++ ": " ++ e.value)
      ∧ eventHasContent (_create_event c env eid now lvl (some e) none tags extra) = true
      ∧ (_create_event c env eid now lvl exc (some m) tags extra).message = some m
      ∧ (_create_event c env eid now lvl exc (some m) tags extra).message ≠ none
      ∧ (m ≠ "" →
          eventHasContent (_create_event c env eid now lvl exc (some m) tags extra) = true) := by
  intro c env eid now lvl e exc m tags extra
  refine ⟨rfl, ?_, rfl, by simp [_create_event], ?_⟩
  · simp [eventHasContent, _create_event]
  · intro hm
    simp [eventHasContent, _create_event, hm]

/-- Witness for the amended claim C7 at a concrete non-empty message. -/
theorem create_event_message_policy_witness :
    eventHasContent
      (_create_event (exClient none) exEnv "idw" 0 Level.info none (some "hello") none none)
      = true :=
  (create_event_message_policy (exClient none) exEnv "idw" 0 Level.info
      ⟨"T", "v", [], none⟩ none "hello" none none).2.2.2.2 (by decide)

/-- Auxiliary: closed form of one trail step under a positive capacity
when the trail is within capacity. -/
theorem trailStep_closed (cap : Nat) (hcap : 0 < cap) (bs : List Breadcrumb) (b : Breadcrumb) :
    trailStep cap bs b = (bs ++ [b]).drop (bs.length + 1 - cap) := by
  unfold trailStep pySliceLast
  by_cases h : cap < (bs ++ [b]).length
  · rw [if_pos h, if_neg (by omega : ¬ cap = 0)]
    congr 1
    simp
  · rw [if_neg h]
    simp only [List.length_append, List.length_cons, List.length_nil] at h
    have h0 : bs.length + 1 - cap = 0 := by omega
    rw [h0, List.drop_zero]

/-- Auxiliary: closed form of a fold of trail steps. -/
theorem trail_foldl (cap : Nat) (hcap : 0 < cap) :
    ∀ (input s : List Breadcrumb), s.length ≤ cap →
      input.foldl (trailStep cap) s = (s ++ input).drop (s.length + input.length - cap) := by
  intro input
  induction input with
  | nil =>
    intro s hs
    simp only [List.foldl_nil, List.append_nil, List.length_nil, Nat.add_zero]
    have h0 : s.length - cap = 0 := by omega
    rw [h0, List.drop_zero]
  | cons b rest ih =>
    intro s hs
    rw [List.foldl_cons, trailStep_closed cap hcap s b]
    have hlen : ((s ++ [b]).drop (s.length + 1 - cap)).length ≤ cap := by
      simp only [List.length_drop, List.length_append, List.length_cons, List.length_nil]
      omega
    rw [ih _ hlen]
    have h1 : ((s ++ [b]) ++ rest).drop (s.length + 1 - cap)
        = (s ++ [b]).drop (s.length + 1 - cap) ++ rest := by
      rw [List.drop_append_eq_append_drop]
      have h0 : s.length + 1 - cap - (s ++ [b]).length = 0 := by
        simp only [List.length_append, List.length_cons, List.length_nil]
        omega
      rw [h0, List.drop_zero]
    rw [← h1, List.drop_drop]
    simp only [List.length_drop, List.length_append, List.length_cons, List.length_nil]
    congr 1 <;> first | omega | simp

/-- Claim C3 amended: for every positive configured capacity the trail left
by any sequence of appends (started from an empty trail) never exceeds the
capacity, and after capacity-plus-k appends (k positive) it holds exactly
the capacity most recent breadcrumbs in their original order; the client
operation performs exactly one such trail step.  (With capacity zero the
source slice keeps the whole list instead, see the counterexample.) -/
theorem breadcrumb_trail_bounded :
    ∀ cap : Nat, 0 < cap →
      (∀ input : List Breadcrumb,
        (trailAfter cap input).length ≤ cap
        ∧ trailAfter cap input = input.drop (input.length - cap))
      ∧ (∀ (k : Nat) (input : List Breadcrumb), 0 < k → input.length = cap + k →
          trailAfter cap input = input.drop k ∧ (trailAfter cap input).length = cap)
      ∧ (∀ (c : BugwatchClient) (now : Nat) (cat msg : String) (lvl : Level)
          (data : Option AnyMap) (ty : String),
          (add_breadcrumb c now cat msg lvl data ty).breadcrumbs
            = trailStep c.options.max_breadcrumbs c.breadcrumbs
                ⟨cat, msg, ty, lvl, now, data⟩) := by
  intro cap hcap
  have key : ∀ input : List Breadcrumb,
      trailAfter cap input = input.drop (input.length - cap) := by
    intro input
    have h := trail_foldl cap hcap input [] (by simp)
    simpa [trailAfter] using h
  refine ⟨?_, ?_, ?_⟩
  · intro input
    refine ⟨?_, key input⟩
    rw [key input]
    simp only [List.length_drop]
    omega
  · intro k input hk hlen
    have h1 : trailAfter cap input = input.drop k := by
      rw [key input, hlen]
      congr 1
      omega
    refine ⟨h1, ?_⟩
    rw [h1]
    simp only [List.length_drop]
    omega
  · intro c now cat msg lvl data ty
    rfl

/-- Witness for the amended claim C3: capacity two, three appends. -/
theorem breadcrumb_trail_bounded_witness :
    trailAfter 2 [exCrumb 0, exCrumb 1, exCrumb 2] = [exCrumb 1, exCrumb 2]
    ∧ (trailAfter 2 [exCrumb 0, exCrumb 1, exCrumb 2]).length = 2 :=
  (breadcrumb_trail_bounded 2 (by decide)).2.1 1 [exCrumb 0, exCrumb 1, exCrumb 2]
    (by decide) (by decide)

/-- Claim C8: with a before_send hook configured, a hook returning the drop
signal makes the call return the empty string with zero transport sends,
and a hook returning a modified event makes that modified event the one
handed to the transport — for `capture_message` and `capture_exception`
alike. -/
theorem before_send_hook_contract :
    ∀ (c : BugwatchClient) (env : PyEnv) (rand : Rat) (eid : String) (now : Nat)
      (msg : String) (lvl : Level) (tags : Option AnyMap) (extra : Option AnyMap)
      (hook : ErrorEvent → Except PyErr (Option ErrorEvent)) (err : PyExceptionObj)
      (cur : Option PyExceptionObj),
      c.options.before_send = some hook →
      (hook (_create_event c env eid now lvl none (some msg) tags extra) = Except.ok none →
        capture_message c env rand eid now msg lvl tags extra = (Except.ok "", []))
      ∧ (∀ ev, sampledOut c rand = false →
          hook (_create_event c env eid now lvl none (some msg) tags extra)
            = Except.ok (some ev) →
          (capture_message c env rand eid now msg lvl tags extra).2 = [ev])
      ∧ (hook (hookedExceptionEvent c env eid now err lvl tags extra) = Except.ok none →
          capture_exception c env rand eid now (some err) cur lvl tags extra
            = (Except.ok "", []))
      ∧ (∀ ev, sampledOut c rand = false →
          hook (hookedExceptionEvent c env eid now err lvl tags extra) = Except.ok (some ev) →
          (capture_exception c env rand eid now (some err) cur lvl tags extra).2 = [ev]) := by
  intro c env rand eid now msg lvl tags extra hook err cur hbs
  refine ⟨?_, ?_, ?_, ?_⟩
  · intro hdrop
    by_cases hs : sampledOut c rand
    · simp [capture_message, hs]
    · simp [capture_message, hs, hbs, hdrop]
  · intro ev hs hmod
    simp only [capture_message, hs, hbs, hmod, if_neg Bool.false_ne_true]
    cases hts : c.transport_send ev <;> simp [hts]
  · intro hdrop
    by_cases hs : sampledOut c rand
    · simp [capture_exception, hs]
    · simp only [capture_exception, hookedExceptionEvent] at hdrop ⊢
      simp [hs, hbs, hdrop]
  · intro ev hs hmod
    simp only [capture_exception, hookedExceptionEvent] at hmod ⊢
    simp only [hs, hbs, hmod, if_neg Bool.false_ne_true]
    cases hts : c.transport_send ev <;> simp [hts]

/-- Witness for claim C8: a dropping hook yields the empty id and no sends;
a tag-mutating hook makes the mutated event the one sent. -/
theorem before_send_hook_contract_witness :
    capture_message (exClient (some dropHook)) exEnv 1 "id8" 0 "m" Level.info none none
      = (Except.ok "", [])
    ∧ (capture_message (exClient (some modHook)) exEnv 1 "id9" 0 "m" Level.info none none).2
      = [{ _create_event (exClient (some modHook)) exEnv "id9" 0 Level.info none (some "m")
            none none with
          tags := dictUpsert (_create_event (exClient (some modHook)) exEnv "id9" 0 Level.info
            none (some "m") none none).tags "modified" "true" }] := by
  constructor
  · exact (before_send_hook_contract (exClient (some dropHook)) exEnv 1 "id8" 0 "m" Level.info
      none none dropHook exErr none rfl).1 rfl
  · exact (before_send_hook_contract (exClient (some modHook)) exEnv 1 "id9" 0 "m" Level.info
      none none modHook exErr none rfl).2.1 _ rfl rfl

/-! ### Scanning-engine lemmas -/

/-- Auxiliary: the scan result does not depend on the fuel, as long as the
fuel covers the list length and the matcher consumes at least one
character per match. -/
theorem scanGo_fuel_congr (m : List Char → Option Nat) (repl : List Char)
    (hm : ∀ l k, m l = some k → 1 ≤ k) :
    ∀ (f1 f2 : Nat) (l : List Char), l.length ≤ f1 → l.length ≤ f2 →
      scanGo m repl f1 l = scanGo m repl f2 l := by
  intro f1
  induction f1 with
  | zero =>
    intro f2 l h1 h2
    have hl : l = [] := by
      cases l with
      | nil => rfl
      | cons c rest => simp at h1
    subst hl
    cases f2 <;> rfl
  | succ f1 ih =>
    intro f2 l h1 h2
    cases l with
    | nil => cases f2 <;> rfl
    | cons c rest =>
      cases f2 with
      | zero => simp at h2
      | succ f2 =>
        simp only [List.length_cons, Nat.succ_le_succ_iff] at h1 h2
        simp only [scanGo]
        cases hmc : m (c :: rest) with
        | none =>
          exact congrArg (c :: ·) (ih f2 rest h1 h2)
        | some k =>
          have hk := hm _ _ hmc
          have hd1 : ((c :: rest).drop k).length ≤ f1 := by
            simp only [List.length_drop, List.length_cons]
            omega
          have hd2 : ((c :: rest).drop k).length ≤ f2 := by
            simp only [List.length_drop, List.length_cons]
            omega
          exact congrArg (repl ++ ·) (ih f2 _ hd1 hd2)

/-- Auxiliary: `reSub` on the empty list. -/
theorem reSub_nil (m : List Char → Option Nat) (repl : String) : reSub m repl [] = [] := rfl

/-- Auxiliary: `reSub` copies the head character when the pattern does not
match at the head. -/
theorem reSub_cons_none (m : List Char → Option Nat) (repl : String) (c : Char)
    (l : List Char) (h : m (c :: l) = none) :
    reSub m repl (c :: l) = c :: reSub m repl l := by
  show scanGo m repl.data (l.length + 1) (c :: l) = c :: scanGo m repl.data l.length l
  simp only [scanGo, h]

/-- Auxiliary: `reSub` emits the replacement and skips the matched span when
the pattern matches at the head. -/
theorem reSub_cons_some (m : List Char → Option Nat) (repl : String)
    (hm : ∀ l k, m l = some k → 1 ≤ k) (c : Char) (l : List Char) (k : Nat)
    (h : m (c :: l) = some k) :
    reSub m repl (c :: l) = repl.data ++ reSub m repl ((c :: l).drop k) := by
  show scanGo m repl.data (l.length + 1) (c :: l)
    = repl.data ++ scanGo m repl.data ((c :: l).drop k).length ((c :: l).drop k)
  simp only [scanGo, h]
  refine congrArg (repl.data ++ ·) (scanGo_fuel_congr m repl.data hm _ _ _ ?_ ?_)
  · have hk := hm _ _ h
    simp only [List.length_drop, List.length_cons]
    omega
  · exact Nat.le_refl _

/-- Auxiliary: the digit matcher consumes at least one character. -/
theorem numM_pos : ∀ (l : List Char) (k : Nat), numM l = some k → 1 ≤ k := by
  intro l k h
  unfold numM at h
  split at h
  · split at h
    · have := Option.some.inj h
      omega
    · exact absurd h (by simp)
  · exact absurd h (by simp)

/-- Auxiliary: the digit matcher at a digit head. -/
theorem numM_cons_digit (c : Char) (l : List Char) (h : c.isDigit = true) :
    numM (c :: l) = some (1 + (l.takeWhile Char.isDigit).length) := by
  simp [numM, h]

/-- Auxiliary: the digit matcher at a non-digit head. -/
theorem numM_cons_nondigit (c : Char) (l : List Char) (h : c.isDigit = false) :
    numM (c :: l) = none := by
  simp [numM, h]

/-! ### takeWhile helpers -/

/-- Auxiliary: takeWhile passes over a prefix every element of which
satisfies the predicate. -/
theorem takeWhile_append_all {α} (p : α → Bool) (l1 l2 : List α)
    (h : ∀ x ∈ l1, p x = true) : (l1 ++ l2).takeWhile p = l1 ++ l2.takeWhile p := by
  induction l1 with
  | nil => simp
  | cons a t ih =>
    have ha : p a = true := h a (by simp)
    simp only [List.cons_append, List.takeWhile_cons, ha, if_pos]
    exact congrArg (a :: ·) (ih (fun x hx => h x (by simp [hx])))

/-- Auxiliary: takeWhile is empty when the head fails the predicate. -/
theorem takeWhile_head_none {α} (p : α → Bool) (l : List α)
    (h : ∀ b, l.head? = some b → p b = false) : l.takeWhile p = [] := by
  cases l with
  | nil => rfl
  | cons a t =>
    have := h a rfl
    simp [List.takeWhile_cons, this]

/-- Auxiliary: takeWhile never leaves a prefix containing a failing
element. -/
theorem takeWhile_append_stops {α} (p : α → Bool) (l1 l2 : List α)
    (h : ∃ x ∈ l1, p x = false) : (l1 ++ l2).takeWhile p = l1.takeWhile p := by
  induction l1 with
  | nil =>
    obtain ⟨x, hx, _⟩ := h
    simp at hx
  | cons a t ih =>
    by_cases ha : p a = true
    · have ht : ∃ x ∈ t, p x = false := by
        obtain ⟨x, hx, hpx⟩ := h
        rcases List.mem_cons.1 hx with rfl | hxt
        · exact absurd ha (by simp [hpx])
        · exact ⟨x, hxt, hpx⟩
      simp only [List.cons_append, List.takeWhile_cons, ha, if_pos]
      exact congrArg (a :: ·) (ih ht)
    · have ha' : p a = false := by revert ha; cases p a <;> simp
      simp [List.takeWhile_cons, ha']

/-- Auxiliary: takeWhile is a strict prefix when some element fails. -/
theorem takeWhile_length_lt {α} (p : α → Bool) (l : List α)
    (h : ∃ x ∈ l, p x = false) : (l.takeWhile p).length < l.length := by
  induction l with
  | nil =>
    obtain ⟨x, hx, _⟩ := h
    simp at hx
  | cons a t ih =>
    by_cases ha : p a = true
    · have ht : ∃ x ∈ t, p x = false := by
        obtain ⟨x, hx, hpx⟩ := h
        rcases List.mem_cons.1 hx with rfl | hxt
        · exact absurd ha (by simp [hpx])
        · exact ⟨x, hxt, hpx⟩
      simp only [List.takeWhile_cons, ha, if_pos, List.length_cons]
      exact Nat.succ_lt_succ (ih ht)
    · have ha' : p a = false := by revert ha; cases p a <;> simp
      simp [List.takeWhile_cons, ha']

/-- Auxiliary: the last entry of a list is a member. -/
theorem mem_of_getLast?_eq {α} (l : List α) (x : α) (h : l.getLast? = some x) : x ∈ l := by
  induction l with
  | nil => simp at h
  | cons a t ih =>
    cases t with
    | nil =>
      simp only [List.getLast?_singleton, Option.some.injEq] at h
      simp [h]
    | cons b t' =>
      rw [List.getLast?_cons_cons] at h
      exact List.mem_cons_of_mem a (ih h)

/-- Auxiliary: dropping less than the whole list keeps the last entry. -/
theorem getLast?_drop_of_lt {α} (l : List α) (n : Nat) (h : n < l.length) :
    (l.drop n).getLast? = l.getLast? := by
  have hne : l.drop n ≠ [] := by
    intro hnil
    have := List.length_drop n l
    rw [hnil] at this
    simp at this
    omega
  conv_rhs => rw [← List.take_append_drop n l]
  rw [List.getLast?_append_of_ne_nil _ hne]

/-! ### The digit-run middle lemma -/

/-- Auxiliary: a run of digits followed by a non-digit boundary collapses
to one number marker. -/
theorem subNum_leading_digit_run (d B : List Char) (hd : d ≠ [])
    (hall : d.all Char.isDigit = true) (hB : ∀ b, B.head? = some b → b.isDigit = false) :
    subNum (d ++ B) = "<number>".data ++ subNum B := by
  cases d with
  | nil => exact absurd rfl hd
  | cons c cs =>
    rw [List.all_cons, Bool.and_eq_true] at hall
    have hc : c.isDigit = true := hall.1
    have hcs : ∀ x ∈ cs, Char.isDigit x = true := by
      intro x hx
      exact List.all_eq_true.1 hall.2 x hx
    have htw : (cs ++ B).takeWhile Char.isDigit = cs := by
      rw [takeWhile_append_all Char.isDigit cs B hcs, takeWhile_head_none Char.isDigit B hB,
        List.append_nil]
    have hm : numM (c :: (cs ++ B)) = some (1 + cs.length) := by
      rw [numM_cons_digit c (cs ++ B) hc, htw]
    show reSub numM "<number>" (c :: (cs ++ B)) = "<number>".data ++ subNum B
    rw [reSub_cons_some numM "<number>" numM_pos c (cs ++ B) (1 + cs.length) hm]
    have hdrop : (c :: (cs ++ B)).drop (1 + cs.length) = B := by
      rw [Nat.add_comm, List.drop_succ_cons, List.drop_append_eq_append_drop,
        List.drop_of_length_le (Nat.le_refl _), Nat.sub_self, List.drop_zero, List.nil_append]
    rw [hdrop]
    rfl

/-- Auxiliary: replacing one maximal digit run between fixed contexts gives
the same digit-pass output, whatever the digits are. -/
theorem subNum_middle :
    ∀ (n : Nat) (A d1 d2 B : List Char), A.length ≤ n →
      d1 ≠ [] → d2 ≠ [] → d1.all Char.isDigit = true → d2.all Char.isDigit = true →
      (∀ a, A.getLast? = some a → a.isDigit = false) →
      (∀ b, B.head? = some b → b.isDigit = false) →
      subNum (A ++ (d1 ++ B)) = subNum (A ++ (d2 ++ B)) := by
  intro n
  induction n with
  | zero =>
    intro A d1 d2 B hA h1 h2 hall1 hall2 hlast hhead
    have hAe : A = [] := by
      cases A with
      | nil => rfl
      | cons a t => simp at hA
    subst hAe
    simp only [List.nil_append]
    rw [subNum_leading_digit_run d1 B h1 hall1 hhead, subNum_leading_digit_run d2 B h2 hall2 hhead]
  | succ n ih =>
    intro A d1 d2 B hA h1 h2 hall1 hall2 hlast hhead
    cases A with
    | nil =>
      simp only [List.nil_append]
      rw [subNum_leading_digit_run d1 B h1 hall1 hhead, subNum_leading_digit_run d2 B h2 hall2 hhead]
    | cons a A' =>
      simp only [List.length_cons, Nat.succ_le_succ_iff] at hA
      by_cases hd : a.isDigit = true
      · have hA'ne : A' ≠ [] := by
          intro hh
          subst hh
          have := hlast a (by simp)
          rw [this] at hd
          exact absurd hd (by simp)
        have hlastA' : ∀ x, A'.getLast? = some x → x.isDigit = false := by
          intro x hx
          apply hlast
          rw [show (a :: A') = [a] ++ A' from rfl, List.getLast?_append_of_ne_nil [a] hA'ne]
          exact hx
        have hex : ∃ x ∈ A', Char.isDigit x = false := by
          cases hg : A'.getLast? with
          | none => exact absurd (List.getLast?_eq_none_iff.1 hg) hA'ne
          | some x => exact ⟨x, mem_of_getLast?_eq A' x hg, hlastA' x hg⟩
        have htwlt := takeWhile_length_lt Char.isDigit A' hex
        have hmside : ∀ X : List Char, numM (a :: (A' ++ X))
            = some (1 + (A'.takeWhile Char.isDigit).length) := by
          intro X
          rw [numM_cons_digit a (A' ++ X) hd, takeWhile_append_stops Char.isDigit A' X hex]
        have hdropside : ∀ X : List Char,
            (a :: (A' ++ X)).drop (1 + (A'.takeWhile Char.isDigit).length)
              = A'.drop ((A'.takeWhile Char.isDigit).length) ++ X := by
          intro X
          rw [Nat.add_comm, List.drop_succ_cons, List.drop_append_eq_append_drop]
          have h0 : (A'.takeWhile Char.isDigit).length - A'.length = 0 := by omega
          rw [h0, List.drop_zero]
        show subNum (a :: (A' ++ (d1 ++ B))) = subNum (a :: (A' ++ (d2 ++ B)))
        show reSub numM "<number>" (a :: (A' ++ (d1 ++ B)))
          = reSub numM "<number>" (a :: (A' ++ (d2 ++ B)))
        rw [reSub_cons_some numM "<number>" numM_pos a (A' ++ (d1 ++ B)) _ (hmside (d1 ++ B)),
          reSub_cons_some numM "<number>" numM_pos a (A' ++ (d2 ++ B)) _ (hmside (d2 ++ B)),
          hdropside (d1 ++ B), hdropside (d2 ++ B)]
        refine congrArg ("<number>".data ++ ·) ?_
        have hlen' : (A'.drop ((A'.takeWhile Char.isDigit).length)).length ≤ n := by
          simp only [List.length_drop]
          omega
        have hlast' : ∀ x,
            (A'.drop ((A'.takeWhile Char.isDigit).length)).getLast? = some x →
            x.isDigit = false := by
          intro x hx
          apply hlastA'
          rw [← getLast?_drop_of_lt A' ((A'.takeWhile Char.isDigit).length) htwlt]
          exact hx
        exact ih _ d1 d2 B hlen' h1 h2 hall1 hall2 hlast' hhead
      · have hd' : a.isDigit = false := by revert hd; cases a.isDigit <;> simp
        have hlastA' : ∀ x, A'.getLast? = some x → x.isDigit = false := by
          intro x hx
          have hA'ne : A' ≠ [] := by
            intro hh
            subst hh
            simp at hx
          apply hlast
          rw [show (a :: A') = [a] ++ A' from rfl, List.getLast?_append_of_ne_nil [a] hA'ne]
          exact hx
        show reSub numM "<number>" (a :: (A' ++ (d1 ++ B)))
          = reSub numM "<number>" (a :: (A' ++ (d2 ++ B)))
        rw [reSub_cons_none numM "<number>" a (A' ++ (d1 ++ B))
            (numM_cons_nondigit a (A' ++ (d1 ++ B)) hd'),
          reSub_cons_none numM "<number>" a (A' ++ (d2 ++ B))
            (numM_cons_nondigit a (A' ++ (d2 ++ B)) hd')]
        exact congrArg (a :: ·) (ih A' d1 d2 B hA h1 h2 hall1 hall2 hlastA' hhead)

/-- Auxiliary: equal normalized messages give equal fingerprints. -/
theorem fingerprint_congr_of_normalize_eq (t : String) (d : Option String) (m1 m2 : String)
    (h : _normalize_message m1 = _normalize_message m2) :
    generate_fingerprint t m1 d = generate_fingerprint t m2 d := by
  unfold generate_fingerprint
  rw [h]

/-- Auxiliary: reading of the Boolean tail condition. -/
theorem noDigitLast_spec (A : List Char) (h : noDigitLast A = true) :
    ∀ a, A.getLast? = some a → a.isDigit = false := by
  intro a ha
  unfold noDigitLast at h
  rw [ha] at h
  simpa using h

/-- Auxiliary: reading of the Boolean head condition. -/
theorem noDigitHead_spec (B : List Char) (h : noDigitHead B = true) :
    ∀ b, B.head? = some b → b.isDigit = false := by
  intro b hb
  unfold noDigitHead at h
  rw [hb] at h
  simpa using h

set_option maxRecDepth 8192 in
/-- Claim C5 counterexample: the invariance under quoted substrings fails
when the surrounding context itself contains a quote character.  The two
messages share the prefix consisting of one double quote and differ only
in the quoted substrings (quote, a, quote) versus (quote, b, quote), yet
their fingerprints under the same type differ: the leading context quote
pairs with the opening quote of the differing substring, so normalization
replaces the empty quoted literal and leaves the differing characters as
visible text. -/
theorem quoted_context_breaks_invariance :
    ("\"\"a\"" : String) = "\"" ++ "\"a\""
    ∧ ("\"\"b\"" : String) = "\"" ++ "\"b\""
    ∧ ("\"a\"" : String) = "\"" ++ "a" ++ "\""
    ∧ ("\"b\"" : String) = "\"" ++ "b" ++ "\""
    ∧ generate_fingerprint "E" "\"\"a\"" none ≠ generate_fingerprint "E" "\"\"b\"" none := by
  refine ⟨rfl, rfl, rfl, rfl, by decide⟩

/-- Claim C5 amended: fingerprints are invariant across each normalization
class as long as the varied part does not interact with the surrounding
context - in full generality, two messages with equal normalized forms
have equal fingerprints under every type and digest (the digit-run, UUID
and quoted-string example pairs of the specification all normalize
identically); and for digit runs specifically, any two maximal digit runs
placed between the same digit-free boundaries after the five earlier
passes yield equal fingerprints. -/
theorem normalization_invariance_classes :
    (∀ (t : String) (d : Option String) (m1 m2 : String),
        _normalize_message m1 = _normalize_message m2 →
        generate_fingerprint t m1 d = generate_fingerprint t m2 d)
    ∧ (∀ (t : String) (d : Option String) (m1 m2 : String) (A d1 d2 B : List Char),
        preNumberPasses m1.data = A ++ (d1 ++ B) →
        preNumberPasses m2.data = A ++ (d2 ++ B) →
        d1 ≠ [] → d2 ≠ [] → d1.all Char.isDigit = true → d2.all Char.isDigit = true →
        noDigitLast A = true → noDigitHead B = true →
        generate_fingerprint t m1 d = generate_fingerprint t m2 d) := by
  constructor
  · exact fun t d m1 m2 h => fingerprint_congr_of_normalize_eq t d m1 m2 h
  · intro t d m1 m2 A d1 d2 B hp1 hp2 hne1 hne2 hall1 hall2 hlastB hheadB
    apply fingerprint_congr_of_normalize_eq
    unfold _normalize_message
    rw [hp1, hp2]
    exact congrArg String.mk
      (subNum_middle A.length A d1 d2 B (Nat.le_refl _) hne1 hne2 hall1 hall2
        (noDigitLast_spec A hlastB) (noDigitHead_spec B hheadB))

/-- Witness for the amended claim C5, at the three example pairs of the
specification: digit runs, UUIDs and quoted substrings. -/
theorem normalization_invariance_classes_witness :
    generate_fingerprint "IndexError" "list index 5 out of range" none
      = generate_fingerprint "IndexError" "list index 10 out of range" none
    ∧ generate_fingerprint "KeyError"
        "user 550e8400-e29b-41d4-a716-446655440000 not found" none
      = generate_fingerprint "KeyError"
        "user 6ba7b810-9dad-11d1-80b4-00c04fd430c8 not found" none
    ∧ generate_fingerprint "KeyError" "key \"foo\" not found" none
      = generate_fingerprint "KeyError" "key \"bar\" not found" none := by
  refine ⟨?_, ?_, ?_⟩
  · exact normalization_invariance_classes.2 "IndexError" none
      "list index 5 out of range" "list index 10 out of range"
      (String.data "list index ") (String.data "5") (String.data "10")
      (String.data " out of range")
      (by decide) (by decide) (by decide) (by decide) (by decide) (by decide)
      (by decide) (by decide)
  · exact normalization_invariance_classes.1 "KeyError" none
      "user 550e8400-e29b-41d4-a716-446655440000 not found"
      "user 6ba7b810-9dad-11d1-80b4-00c04fd430c8 not found" (by decide)
  · exact normalization_invariance_classes.1 "KeyError" none
      "key \"foo\" not found" "key \"bar\" not found" (by decide)

end Bugwatch
